import Mathlib

set_option autoImplicit false

/-!
Verification development for `pymanopt/solvers/stochastic_gradient.py`
(`StochasticGradient.solve`, lines 18-94 of the source).

The source file is an unfinished solver: line 77 reads
`stepsize, x = # TODO use step-size function to make step and return size.`
(an assignment with no right-hand side, so the module cannot be parsed), and
line 55 passes `solverparams={'linesearcher': linesearch}` where the name
`linesearch` is bound nowhere in scope, so even ignoring the parse failure
every call to `solve` raises a NameError at line 54-55, before the `while`
loop at line 57 is entered.

Two embeddings are developed side by side:

* `solve` - the method as it executes: lines 38-52 run (manifold/verbosity
  bindings, the optional `man.rand()` call, the iteration counter and timer,
  the verbosity-gated header print), then the call at lines 54-55 raises.

* `solveCompleted` - the loop (lines 57-86) and the epilogue (lines 88-94)
  translated from the source verbatim, with the two pieces of the program
  that are not present in `src/` supplied from the specification: the base
  class `pymanopt.solvers.solver.Solver` (its `_start_optlog`,
  `_append_optlog`, `_check_stopping_criterion`, `_stop_optlog` methods and
  its threshold configuration), and the missing right-hand side of line 77
  (the step-size rule invocation).

Both embeddings record every externally observable action (random point
request, cost/gradient evaluation, console print, step-rule invocation) in an
event trace, so that theorems can speak about call counts and ordering.
-/

namespace StochasticGradient

/-- A manifold handle as `solve` consumes it (lines 38, 45, 64): a random
point generator `rand` (the source calls it at most once, line 45) and a
norm `norm(point, tangent_vector)` (line 64).  Scalars are modelled as `ℤ` (the claims at issue never depend on fractional values, and integer arithmetic is kernel-computable). -/
structure Manifold (P V : Type) where
  rand : P
  norm : P → V → ℤ

/-- A problem as `solve` consumes it (lines 38-41): a manifold handle, a
console verbosity level, a cost and a gradient.  Cost and gradient are
indexed by their invocation count (first argument) because the gradient is
an arbitrary stochastic estimate that may differ from call to call and may
fail on a particular call; they return `Except` to model a raised Python
exception. -/
structure Problem (P V : Type) where
  manifold : Manifold P V
  verbosity : ℤ
  cost : ℕ → P → Except String ℤ
  grad : ℕ → P → Except String V

/-- Modelled from the spec: the threshold configuration held by the base
class `pymanopt.solvers.solver.Solver` (the file `solver.py` is not part of
`src/`).  Per spec section 4.3, "any threshold left unconfigured is treated
as unreachable", hence `Option`; `logverbosity` is the base class field
`_logverbosity` read at lines 70 and 88. -/
structure SolverConfig where
  maxiter : Option ℕ
  maxtime : Option ℤ
  mingradnorm : Option ℤ
  minstepsize : Option ℤ
  logverbosity : ℤ

/-- The termination reasons of spec section 4.3 (the source's
`_check_stopping_criterion` returns a reason string or `None`). -/
inductive StopReason where
  | maxIterationsReached
  | maxTimeExceeded
  | gradientNormBelowThreshold
  | stepSizeBelowThreshold
  deriving DecidableEq

/-- Evaluate a threshold: an unconfigured (`none`) threshold never fires. -/
def thresholdHit {α : Type} (o : Option α) (p : α → Bool) : Bool :=
  match o with
  | none => false
  | some a => p a

/-- Modelled from the spec: `Solver._check_stopping_criterion` (called at
lines 79-80; `solver.py` is not part of `src/`).  Spec section 4.3 fixes the
evaluation order: (1) iteration at or above max iterations, (2) elapsed time
at or above max time, (3) gradient norm at or below its threshold, (4) step
size at or below its threshold; first match wins, otherwise continue. -/
def checkStoppingCriterion (cfg : SolverConfig) (elapsed stepsize gradnorm : ℤ)
    (iter : ℕ) : Option StopReason :=
  if thresholdHit cfg.maxiter (fun m => decide (m ≤ iter)) then
    some StopReason.maxIterationsReached
  else if thresholdHit cfg.maxtime (fun t => decide (t ≤ elapsed)) then
    some StopReason.maxTimeExceeded
  else if thresholdHit cfg.mingradnorm (fun g => decide (gradnorm ≤ g)) then
    some StopReason.gradientNormBelowThreshold
  else if thresholdHit cfg.minstepsize (fun s => decide (stepsize ≤ s)) then
    some StopReason.stepSizeBelowThreshold
  else
    none

/-- Modelled from the spec: the step-size rule of spec section 4.2, standing
for the missing right-hand side of line 77 (`stepsize, x = # TODO use
step-size function to make step and return size.`).  Contract:
`next(point, direction, iteration) -> (stepsize, new_point)`; the reference
implementation is a pure decaying schedule, which queries neither cost nor
gradient, so the rule contributes no cost/gradient evaluations of its own. -/
structure StepSizeRule (P V : Type) where
  next : P → V → ℕ → ℤ × P

/-- One per-iteration log record: `_append_optlog(iter, x, cost,
gradnorm=gradnorm)` at line 71 (modelled from the spec, section 4.4, since
`solver.py` is not part of `src/`). -/
structure IterationRecord (P : Type) where
  iteration : ℕ
  point : P
  cost : ℤ
  gradnorm : ℤ
  deriving DecidableEq

/-- The terminal log record written by `_stop_optlog` at lines 91-93
(modelled from the spec, section 4.4). -/
structure FinalRecord (P : Type) where
  point : P
  cost : ℤ
  reason : StopReason
  elapsed : ℤ
  stepsize : ℤ
  gradnorm : ℤ
  iteration : ℕ
  deriving DecidableEq

/-- The optimization log (`self._optlog`, line 94): an append-only record
list plus an optional terminal record (modelled from the spec, section 4.4). -/
structure OptLog (P : Type) where
  records : List (IterationRecord P)
  final : Option (FinalRecord P)
  deriving DecidableEq

/-- Externally observable actions of a `solve` call, in order. -/
inductive Event (P V : Type) where
  | rand (point : P)
  | costEval (point : P)
  | gradEval (point : P)
  | normEval (point : P) (tangent : V)
  | printHeader (line : String)
  | printIter (fmt : String) (iter : ℕ) (cost gradnorm : ℤ)
  | printStop (reason : StopReason)
  | printBlank
  | stepRule (point : P) (grad : V) (dir : V) (iter : ℕ) (stepsize : ℤ)
      (newPoint : P)
  deriving DecidableEq

/-- True exactly on `Event.rand`. -/
def Event.isRand {P V : Type} : Event P V → Bool
  | Event.rand _ => true
  | _ => false

/-- True exactly on `Event.costEval`. -/
def Event.isCostEval {P V : Type} : Event P V → Bool
  | Event.costEval _ => true
  | _ => false

/-- True exactly on `Event.gradEval`. -/
def Event.isGradEval {P V : Type} : Event P V → Bool
  | Event.gradEval _ => true
  | _ => false

/-- True exactly on `Event.printIter`. -/
def Event.isPrintIter {P V : Type} : Event P V → Bool
  | Event.printIter _ _ _ _ => true
  | _ => false

/-- True exactly on `Event.stepRule`. -/
def Event.isStepRule {P V : Type} : Event P V → Bool
  | Event.stepRule _ _ _ _ _ _ => true
  | _ => false

/-- How a `solve` call ends when it does not return: a propagated Python
exception, the spec's ConfigurationError (spec section 7; never produced by
the code), or non-termination (the fuel of the executable model ran out). -/
inductive Abort where
  | exn (msg : String)
  | configurationError
  | diverged
  deriving DecidableEq

/-- What `solve` returns (lines 88-94): the bare final point when
`_logverbosity <= 0`, otherwise the pair of the final point and the log. -/
inductive SolveResult (P : Type) where
  | point (x : P)
  | pointWithLog (x : P) (log : OptLog P)
  deriving DecidableEq

/-- Everything observable about one `solve` call: the event trace, the log
state at the end (or at the abort), the final value of the iteration
counter `iter`, and the result or abort. -/
structure Outcome (P V : Type) where
  trace : List (Event P V)
  log : OptLog P
  iters : ℕ
  result : Except Abort (SolveResult P)

/-- The header printed at line 52.  Note the two tab characters between
" iter" and "   cost val". -/
def headerString : String := " iter\t\t   cost val\t    grad. norm"

/-- The per-iteration format string of line 68: iteration number (width 5),
tab, signed cost in scientific notation with 16 digits after the decimal
point, tab, gradient norm with 8 digits. -/
def iterLineFormat : String := "%5d\t%+.16e\t%.8e"

/-- The message of the NameError raised at lines 54-55: the name
`linesearch` is bound nowhere in the enclosing scopes. -/
def nameErrorLinesearch : String := "NameError: name linesearch is not defined"

/-- The starting iterate (lines 44-45): the supplied point, or a random
point from the manifold when none is supplied. -/
def startPoint {P V : Type} (prob : Problem P V) (x? : Option P) : P :=
  match x? with
  | none => prob.manifold.rand
  | some p => p

/-- The events emitted before the loop (lines 44-52): the optional
`man.rand()` call and the verbosity-gated header print. -/
def initTrace {P V : Type} (prob : Problem P V) (x? : Option P) :
    List (Event P V) :=
  let t1 : List (Event P V) :=
    match x? with
    | none => [Event.rand prob.manifold.rand]
    | some _ => []
  if 2 ≤ prob.verbosity then t1 ++ [Event.printHeader headerString] else t1

/-- `StochasticGradient.solve` as the source executes: lines 38-41 bind the
collaborators, lines 44-45 draw a random starting point when `x` is absent,
lines 48-49 set up the counter and timer, lines 51-52 print the header when
`verbosity >= 2`, and the `_start_optlog` call at lines 54-55 then raises a
NameError (`linesearch` is undefined), so the loop at line 57 is never
entered.  (Line 77 of the loop body is additionally an assignment with no
right-hand side, so the module does not even parse.) -/
def solve {P V : Type} (cfg : SolverConfig) (prob : Problem P V)
    (x? : Option P) : Outcome P V :=
  { trace := initTrace prob x?
    log := { records := [], final := none }
    iters := 0
    result := Except.error (Abort.exn nameErrorLinesearch) }

/-- The mutable state of the `while` loop at lines 57-86: the current point
`x`, the iteration counter `iter`, the log, and the trace so far. -/
structure LoopState (P V : Type) where
  x : P
  iter : ℕ
  log : OptLog P
  trace : List (Event P V)

/-- The epilogue, lines 88-94: when `_logverbosity <= 0` return the bare
point, otherwise evaluate the cost once more at the final point and finalize
the log with the terminal record (`_stop_optlog` modelled from the spec,
section 4.4; it stamps the elapsed time from one further clock reading). -/
def finish {P V : Type} (cfg : SolverConfig) (clock : ℕ → ℤ)
    (prob : Problem P V) (x : P) (stepsize gradnorm : ℤ) (iter : ℕ)
    (reason : StopReason) (log : OptLog P) (trace : List (Event P V)) :
    Outcome P V :=
  if cfg.logverbosity ≤ 0 then
    { trace := trace, log := log, iters := iter,
      result := Except.ok (SolveResult.point x) }
  else
    let t1 := trace ++ [Event.costEval x]
    match prob.cost iter x with
    | Except.error msg =>
        { trace := t1, log := log, iters := iter,
          result := Except.error (Abort.exn msg) }
    | Except.ok c =>
        let log1 : OptLog P :=
          { log with
            final := some
              { point := x, cost := c, reason := reason
                elapsed := clock (iter + 1) - clock 0
                stepsize := stepsize, gradnorm := gradnorm
                iteration := iter } }
        { trace := t1, log := log1, iters := iter,
          result := Except.ok (SolveResult.pointWithLog x log1) }

/-- The `while True` loop, lines 57-86, translated line by line; `fuel`
bounds the number of iterations the executable model may unfold (running
out of fuel yields `Abort.diverged`).  Per iteration: cost (line 62),
gradient (line 63), norm (line 64), counter increment (line 65), the
verbosity-gated progress print (lines 67-68), the log append when
`_logverbosity >= 2` (lines 70-71), the descent direction as the negated
gradient (line 74), the step-size rule invocation standing for line 77
(modelled from the spec), the stopping check (lines 79-80) with the elapsed
time taken from the clock, and on a stop reason the reason print (lines
82-85) and the break into the epilogue. -/
def loop {P V : Type} [Neg V] (cfg : SolverConfig) (rule : StepSizeRule P V)
    (clock : ℕ → ℤ) (prob : Problem P V) :
    ℕ → LoopState P V → Outcome P V
  | 0, s =>
    { trace := s.trace, log := s.log, iters := s.iter,
      result := Except.error Abort.diverged }
  | fuel + 1, s =>
    let t1 := s.trace ++ [Event.costEval s.x]
    match prob.cost s.iter s.x with
    | Except.error msg =>
        { trace := t1, log := s.log, iters := s.iter,
          result := Except.error (Abort.exn msg) }
    | Except.ok cost =>
      let t2 := t1 ++ [Event.gradEval s.x]
      match prob.grad s.iter s.x with
      | Except.error msg =>
          { trace := t2, log := s.log, iters := s.iter,
            result := Except.error (Abort.exn msg) }
      | Except.ok grad =>
        let gradnorm := prob.manifold.norm s.x grad
        let t3 := t2 ++ [Event.normEval s.x grad]
        let iter := s.iter + 1
        let t4 :=
          if 2 ≤ prob.verbosity then
            t3 ++ [Event.printIter iterLineFormat iter cost gradnorm]
          else t3
        let log1 :=
          if 2 ≤ cfg.logverbosity then
            { s.log with
              records := s.log.records ++
                [{ iteration := iter, point := s.x, cost := cost,
                   gradnorm := gradnorm }] }
          else s.log
        let descDir := -grad
        let step := rule.next s.x descDir iter
        let t5 := t4 ++ [Event.stepRule s.x grad descDir iter step.1 step.2]
        match checkStoppingCriterion cfg (clock iter - clock 0) step.1
            gradnorm iter with
        | some reason =>
            let t6 :=
              if 1 ≤ prob.verbosity then
                t5 ++ [Event.printStop reason, Event.printBlank]
              else t5
            finish cfg clock prob step.2 step.1 gradnorm iter reason log1 t6
        | none =>
            loop cfg rule clock prob fuel
              { x := step.2, iter := iter, log := log1, trace := t5 }

/-- `StochasticGradient.solve` with the two pieces of the program that are
missing from `src/` supplied from the specification (the base class
`Solver` of `pymanopt/solvers/solver.py`, and the right-hand side of line
77 as a step-size rule invocation per spec sections 4.1 and 4.2); lines
38-55 otherwise as in `solve`, then the loop of lines 57-86 and the
epilogue of lines 88-94. -/
def solveCompleted {P V : Type} [Neg V] (cfg : SolverConfig)
    (rule : StepSizeRule P V) (clock : ℕ → ℤ) (prob : Problem P V)
    (x? : Option P) (fuel : ℕ) : Outcome P V :=
  loop cfg rule clock prob fuel
    { x := startPoint prob x?, iter := 0
      log := { records := [], final := none }
      trace := initTrace prob x? }

/-- The one-tab header text that spec section 6 claims is printed; the code
prints `headerString`, which has two tabs after " iter". -/
def specHeaderOneTab : String := " iter\t   cost val\t    grad. norm"

/-- A concrete manifold on `ℤ` for witnesses: random point 0, norm the
absolute value of the tangent scalar. -/
def man0 : Manifold ℤ ℤ :=
  { rand := 0, norm := fun _ v => if v < 0 then -v else v }

/-- A concrete problem for witnesses: cost squares the point, gradient
doubles it, console verbosity 2. -/
def prob0 : Problem ℤ ℤ :=
  { manifold := man0, verbosity := 2
    cost := fun _ p => Except.ok (p * p)
    grad := fun _ p => Except.ok (2 * p) }

/-- A concrete step-size rule for witnesses: constant step size 1, moving by
adding the direction. -/
def rule0 : StepSizeRule ℤ ℤ :=
  { next := fun p d _ => (1, p + d) }

/-- A concrete clock for witnesses: the k-th reading is k. -/
def clock0 : ℕ → ℤ := fun k => (k : ℤ)

/-- A concrete configuration for witnesses: max 3 iterations, everything
else unconfigured, full logging. -/
def cfg0 : SolverConfig :=
  { maxiter := some 3, maxtime := none, mingradnorm := none,
    minstepsize := none, logverbosity := 2 }

/-- A configuration with every stopping threshold disabled and logging
off. -/
def cfgAllOff : SolverConfig :=
  { maxiter := none, maxtime := none, mingradnorm := none,
    minstepsize := none, logverbosity := 0 }

/-- A configuration with every stopping threshold disabled and full
logging. -/
def cfgLogOnly : SolverConfig :=
  { maxiter := none, maxtime := none, mingradnorm := none,
    minstepsize := none, logverbosity := 2 }

/-- The message of the exception thrown by the failing gradient of
`probGradFail`. -/
def gradBoom : String := "ValueError: gradient failed"

/-- A concrete problem whose gradient raises on its third invocation
(invocation index 2) and succeeds otherwise. -/
def probGradFail : Problem ℤ ℤ :=
  { manifold := man0, verbosity := 0
    cost := fun _ p => Except.ok (p * p)
    grad := fun k p =>
      if k = 2 then Except.error gradBoom else Except.ok (2 * p) }

/-- The log produced by the reference run
`solveCompleted cfg0 rule0 clock0 prob0 (some 1) 5`. -/
def log3 : OptLog ℤ :=
  { records :=
      [{ iteration := 1, point := 1, cost := 1, gradnorm := 2 },
       { iteration := 2, point := -1, cost := 1, gradnorm := 2 },
       { iteration := 3, point := 1, cost := 1, gradnorm := 2 }]
    final := some
      { point := -1, cost := 1, reason := StopReason.maxIterationsReached,
        elapsed := 4, stepsize := 1, gradnorm := 2, iteration := 3 } }

/-- Helper: `List.range' s (n+1)` grows by one element at the right end. -/
theorem range1_snoc (s n : ℕ) :
    List.range' s (n + 1) = List.range' s n ++ [s + n] := by
  simpa using @List.range'_concat 1 s n

/-- Helper: the pre-loop trace contains no cost evaluation. -/
theorem initTrace_no_costEval {P V : Type} (prob : Problem P V)
    (x? : Option P) :
    (initTrace prob x?).countP Event.isCostEval = 0 := by
  by_cases hv : 2 ≤ prob.verbosity <;> cases x? <;>
    simp [initTrace, hv, Event.isCostEval]

/-- Helper: the pre-loop trace contains no per-iteration print. -/
theorem initTrace_no_printIter {P V : Type} (prob : Problem P V)
    (x? : Option P) :
    (initTrace prob x?).countP Event.isPrintIter = 0 := by
  by_cases hv : 2 ≤ prob.verbosity <;> cases x? <;>
    simp [initTrace, hv, Event.isPrintIter]

/-- Helper: the pre-loop trace contains no step-rule invocation. -/
theorem initTrace_no_stepRule {P V : Type} (prob : Problem P V) (x? : Option P)
    (p : P) (g d : V) (i : ℕ) (st : ℤ) (xn : P) :
    Event.stepRule p g d i st xn ∉ initTrace prob x? := by
  by_cases hv : 2 ≤ prob.verbosity <;> cases x? <;>
    simp [initTrace, hv]

/-- Helper: the pre-loop trace of a run with a supplied initial point and
console verbosity at least 2 is exactly the header print. -/
theorem initTrace_some {P V : Type} (prob : Problem P V) (p : P)
    (hv : 2 ≤ prob.verbosity) :
    initTrace prob (some p) = [Event.printHeader (P := P) (V := V) headerString] := by
  unfold initTrace
  simp [hv]

/-- Helper: the epilogue adds no random-point event to the trace. -/
theorem finish_no_rand {P V : Type} (cfg : SolverConfig) (clock : ℕ → ℤ)
    (prob : Problem P V) (x : P) (stepsize gradnorm : ℤ) (iter : ℕ)
    (reason : StopReason) (log : OptLog P) (trace : List (Event P V)) :
    (finish cfg clock prob x stepsize gradnorm iter reason log trace).trace.countP
        Event.isRand = trace.countP Event.isRand := by
  unfold finish
  split
  · rfl
  · split <;> simp [List.countP_append, Event.isRand]

/-- Helper: the epilogue adds no per-iteration print to the trace. -/
theorem finish_no_printIter {P V : Type} (cfg : SolverConfig) (clock : ℕ → ℤ)
    (prob : Problem P V) (x : P) (stepsize gradnorm : ℤ) (iter : ℕ)
    (reason : StopReason) (log : OptLog P) (trace : List (Event P V)) :
    (finish cfg clock prob x stepsize gradnorm iter reason log trace).trace.countP
        Event.isPrintIter = trace.countP Event.isPrintIter := by
  unfold finish
  split
  · rfl
  · split <;> simp [List.countP_append, Event.isPrintIter]

/-- Helper: the epilogue extends the trace, adding only cost evaluations at
the final point. -/
theorem finish_trace_mono {P V : Type} (cfg : SolverConfig) (clock : ℕ → ℤ)
    (prob : Problem P V) (x : P) (stepsize gradnorm : ℤ) (iter : ℕ)
    (reason : StopReason) (log : OptLog P) (trace : List (Event P V)) :
    ∃ t, (finish cfg clock prob x stepsize gradnorm iter reason log trace).trace
        = trace ++ t ∧ ∀ e ∈ t, e = Event.costEval x := by
  unfold finish
  split
  · exact ⟨[], by simp⟩
  · split
    · exact ⟨[Event.costEval x], by simp⟩
    · exact ⟨[Event.costEval x], by simp⟩

/-- Helper: the epilogue evaluates the cost once more exactly when the log
verbosity is positive. -/
theorem finish_costEval_count {P V : Type} (cfg : SolverConfig) (clock : ℕ → ℤ)
    (prob : Problem P V) (x : P) (stepsize gradnorm : ℤ) (iter : ℕ)
    (reason : StopReason) (log : OptLog P) (trace : List (Event P V)) :
    (finish cfg clock prob x stepsize gradnorm iter reason log trace).trace.countP
        Event.isCostEval
      = trace.countP Event.isCostEval
        + (if cfg.logverbosity ≤ 0 then 0 else 1) := by
  unfold finish
  split
  · simp_all
  · split <;> simp_all [List.countP_append, Event.isCostEval]

/-- Helper: the epilogue reports the iteration counter it was given. -/
theorem finish_iters {P V : Type} (cfg : SolverConfig) (clock : ℕ → ℤ)
    (prob : Problem P V) (x : P) (stepsize gradnorm : ℤ) (iter : ℕ)
    (reason : StopReason) (log : OptLog P) (trace : List (Event P V)) :
    (finish cfg clock prob x stepsize gradnorm iter reason log trace).iters
      = iter := by
  unfold finish
  split
  · rfl
  · split <;> rfl

/-- Helper: the epilogue never touches the per-iteration record list. -/
theorem finish_records {P V : Type} (cfg : SolverConfig) (clock : ℕ → ℤ)
    (prob : Problem P V) (x : P) (stepsize gradnorm : ℤ) (iter : ℕ)
    (reason : StopReason) (log : OptLog P) (trace : List (Event P V)) :
    (finish cfg clock prob x stepsize gradnorm iter reason log trace).log.records
      = log.records := by
  unfold finish
  split
  · rfl
  · split <;> rfl

/-- Helper: when the epilogue returns a result, its shape and the terminal
record follow lines 88-94: the bare point under log verbosity at most 0,
otherwise the pair of the point and the finalized log, whose terminal record
holds the point, a fresh cost evaluation at it, the stop reason, the elapsed
time, and the final stepsize, gradient norm and iteration count. -/
theorem finish_result_shape {P V : Type} (cfg : SolverConfig) (clock : ℕ → ℤ)
    (prob : Problem P V) (x : P) (stepsize gradnorm : ℤ) (iter : ℕ)
    (reason : StopReason) (log : OptLog P) (trace : List (Event P V))
    (r : SolveResult P)
    (hr : (finish cfg clock prob x stepsize gradnorm iter reason log trace).result
        = Except.ok r) :
    (cfg.logverbosity ≤ 0 → r = SolveResult.point x) ∧
    (1 ≤ cfg.logverbosity → ∃ c, prob.cost iter x = Except.ok c ∧
      (finish cfg clock prob x stepsize gradnorm iter reason log trace).log.final
        = some { point := x, cost := c, reason := reason
                 elapsed := clock (iter + 1) - clock 0
                 stepsize := stepsize, gradnorm := gradnorm
                 iteration := iter } ∧
      r = SolveResult.pointWithLog x
        (finish cfg clock prob x stepsize gradnorm iter reason log trace).log) := by
  by_cases h0 : cfg.logverbosity ≤ 0
  · have hfin : finish cfg clock prob x stepsize gradnorm iter reason log trace
        = { trace := trace, log := log, iters := iter,
            result := Except.ok (SolveResult.point x) } := by
      unfold finish
      rw [if_pos h0]
    rw [hfin] at hr
    simp only [Except.ok.injEq] at hr
    exact ⟨fun _ => hr.symm, fun h1 => absurd h1 (by omega)⟩
  · refine ⟨fun h => absurd h h0, fun _ => ?_⟩
    cases hcost : prob.cost iter x with
    | error msg =>
      have hfin : finish cfg clock prob x stepsize gradnorm iter reason log trace
          = { trace := trace ++ [Event.costEval x], log := log, iters := iter,
              result := Except.error (Abort.exn msg) } := by
        unfold finish
        rw [if_neg h0, hcost]
      rw [hfin] at hr
      exact absurd hr (by simp)
    | ok c =>
      have hfin : finish cfg clock prob x stepsize gradnorm iter reason log trace
          = { trace := trace ++ [Event.costEval x]
              log := { records := log.records
                       final := some { point := x, cost := c, reason := reason
                                       elapsed := clock (iter + 1) - clock 0
                                       stepsize := stepsize, gradnorm := gradnorm
                                       iteration := iter } }
              iters := iter
              result := Except.ok (SolveResult.pointWithLog x
                { records := log.records
                  final := some { point := x, cost := c, reason := reason
                                  elapsed := clock (iter + 1) - clock 0
                                  stepsize := stepsize, gradnorm := gradnorm
                                  iteration := iter } }) } := by
        unfold finish
        rw [if_neg h0, hcost]
      rw [hfin] at hr
      simp only [Except.ok.injEq] at hr
      rw [hfin]
      exact ⟨c, rfl, rfl, hr.symm⟩

/-- Helper: the pre-loop trace contains no gradient evaluation. -/
theorem initTrace_no_gradEval {P V : Type} (prob : Problem P V)
    (x? : Option P) :
    (initTrace prob x?).countP Event.isGradEval = 0 := by
  by_cases hv : 2 ≤ prob.verbosity <;> cases x? <;>
    simp [initTrace, hv, Event.isGradEval]

/-- Helper: the epilogue trace is the loop trace plus the optional fresh
cost evaluation at the final point. -/
theorem finish_trace_eq {P V : Type} (cfg : SolverConfig) (clock : ℕ → ℤ)
    (prob : Problem P V) (x : P) (stepsize gradnorm : ℤ) (iter : ℕ)
    (reason : StopReason) (log : OptLog P) (trace : List (Event P V)) :
    (finish cfg clock prob x stepsize gradnorm iter reason log trace).trace
      = trace ++ (if cfg.logverbosity ≤ 0 then [] else [Event.costEval x]) := by
  unfold finish
  split
  · simp_all
  · split <;> simp_all

/-- Helper: transitivity of the "extends this list" relation. -/
theorem exists_append_trans {α : Type} {A B C : List α}
    (h1 : ∃ t, A = B ++ t) (h2 : ∃ u, B = C ++ u) :
    ∃ t, A = C ++ t := by
  obtain ⟨t, ht⟩ := h1
  obtain ⟨u, hu⟩ := h2
  exact ⟨u ++ t, by simp [ht, hu]⟩

/-- Helper: gluing an extension fact onto a known cons-shaped prefix. -/
theorem exists_cons_append_trans {α : Type} {A B C : List α} {c : α}
    (h1 : ∃ t, A = B ++ t) (h2 : ∃ u, B = C ++ c :: u) :
    ∃ t, A = C ++ c :: t := by
  obtain ⟨t, ht⟩ := h1
  obtain ⟨u, hu⟩ := h2
  exact ⟨u ++ t, by simp [ht, hu]⟩

/-- Helper: the loop only ever appends to the trace. -/
theorem loop_trace_mono {P V : Type} [Neg V] (cfg : SolverConfig)
    (rule : StepSizeRule P V) (clock : ℕ → ℤ) (prob : Problem P V) :
    ∀ (fuel : ℕ) (s : LoopState P V),
      ∃ t, (loop cfg rule clock prob fuel s).trace = s.trace ++ t := by
  intro fuel
  induction fuel with
  | zero => intro s; exact ⟨[], by simp [loop]⟩
  | succ n ih =>
    intro s
    cases hc : prob.cost s.iter s.x with
    | error msg =>
      simp only [loop, hc]
      exact ⟨_, rfl⟩
    | ok cost =>
      cases hg : prob.grad s.iter s.x with
      | error msg =>
        simp only [loop, hc, hg]
        simp only [List.append_assoc]
        exact ⟨_, rfl⟩
      | ok grad =>
        cases hst : checkStoppingCriterion cfg (clock (s.iter + 1) - clock 0)
            (rule.next s.x (-grad) (s.iter + 1)).1
            (prob.manifold.norm s.x grad) (s.iter + 1) with
        | some reason =>
          simp only [loop, hc, hg, hst, finish_trace_eq]
          split_ifs <;> simp only [List.append_assoc] <;> exact ⟨_, rfl⟩
        | none =>
          simp only [loop, hc, hg, hst]
          refine exists_append_trans (ih _) ?_
          split_ifs <;> simp only [List.append_assoc] <;> exact ⟨_, rfl⟩

/-- Helper: with at least one unit of fuel, the first thing the loop does is
evaluate the cost at the entry point (line 62). -/
theorem loop_first_costEval {P V : Type} [Neg V] (cfg : SolverConfig)
    (rule : StepSizeRule P V) (clock : ℕ → ℤ) (prob : Problem P V)
    (fuel : ℕ) (s : LoopState P V) (hfuel : 1 ≤ fuel) :
    ∃ t, (loop cfg rule clock prob fuel s).trace
      = s.trace ++ Event.costEval s.x :: t := by
  cases fuel with
  | zero => omega
  | succ n =>
    cases hc : prob.cost s.iter s.x with
    | error msg =>
      simp only [loop, hc]
      exact ⟨[], rfl⟩
    | ok cost =>
      cases hg : prob.grad s.iter s.x with
      | error msg =>
        simp only [loop, hc, hg]
        simp only [List.append_assoc, List.singleton_append, List.cons_append]
        exact ⟨_, rfl⟩
      | ok grad =>
        cases hst : checkStoppingCriterion cfg (clock (s.iter + 1) - clock 0)
            (rule.next s.x (-grad) (s.iter + 1)).1
            (prob.manifold.norm s.x grad) (s.iter + 1) with
        | some reason =>
          simp only [loop, hc, hg, hst, finish_trace_eq]
          split_ifs <;>
            simp only [List.append_assoc, List.singleton_append,
              List.cons_append, List.append_nil] <;>
            exact ⟨_, rfl⟩
        | none =>
          simp only [loop, hc, hg, hst]
          refine exists_cons_append_trans (loop_trace_mono cfg rule clock prob n _) ?_
          split_ifs <;>
            simp only [List.append_assoc, List.singleton_append,
              List.cons_append, List.append_nil] <;>
            exact ⟨_, rfl⟩

/-- Helper: the loop adds no random-point event to the trace. -/
theorem loop_no_rand {P V : Type} [Neg V] (cfg : SolverConfig)
    (rule : StepSizeRule P V) (clock : ℕ → ℤ) (prob : Problem P V) :
    ∀ (fuel : ℕ) (s : LoopState P V),
      (loop cfg rule clock prob fuel s).trace.countP Event.isRand
        = s.trace.countP Event.isRand := by
  intro fuel
  induction fuel with
  | zero => intro s; rfl
  | succ n ih =>
    intro s
    cases hc : prob.cost s.iter s.x with
    | error msg => simp [loop, hc, List.countP_append, Event.isRand]
    | ok cost =>
      cases hg : prob.grad s.iter s.x with
      | error msg => simp [loop, hc, hg, List.countP_append, Event.isRand]
      | ok grad =>
        cases hst : checkStoppingCriterion cfg (clock (s.iter + 1) - clock 0)
            (rule.next s.x (-grad) (s.iter + 1)).1
            (prob.manifold.norm s.x grad) (s.iter + 1) with
        | some reason =>
          simp only [loop, hc, hg, hst]
          simp only [finish_no_rand]
          split_ifs <;> simp [List.countP_append, Event.isRand]
        | none =>
          simp only [loop, hc, hg, hst]
          rw [ih]
          split_ifs <;> simp [List.countP_append, Event.isRand]

/-- Helper: every per-iteration print event the loop adds carries the format
string of line 68. -/
theorem loop_printIter_fmt {P V : Type} [Neg V] (cfg : SolverConfig)
    (rule : StepSizeRule P V) (clock : ℕ → ℤ) (prob : Problem P V) :
    ∀ (fuel : ℕ) (s : LoopState P V) (f : String) (i : ℕ) (c nn : ℤ),
      Event.printIter f i c nn ∈ (loop cfg rule clock prob fuel s).trace →
        Event.printIter f i c nn ∈ s.trace ∨ f = iterLineFormat := by
  intro fuel
  induction fuel with
  | zero => intro s f i c nn h; exact Or.inl h
  | succ n ih =>
    intro s f i c nn h
    cases hc : prob.cost s.iter s.x with
    | error msg =>
      simp only [loop, hc] at h
      simp only [List.mem_append, List.mem_singleton] at h
      rcases h with h | h
      · exact Or.inl h
      · simp at h
    | ok cost =>
      cases hg : prob.grad s.iter s.x with
      | error msg =>
        simp only [loop, hc, hg] at h
        simp only [List.append_assoc, List.mem_append, List.mem_cons,
          List.mem_singleton] at h
        rcases h with h | h
        · exact Or.inl h
        · simp at h
      | ok grad =>
        cases hst : checkStoppingCriterion cfg (clock (s.iter + 1) - clock 0)
            (rule.next s.x (-grad) (s.iter + 1)).1
            (prob.manifold.norm s.x grad) (s.iter + 1) with
        | some reason =>
          simp only [loop, hc, hg, hst, finish_trace_eq] at h
          split_ifs at h <;>
            simp [List.append_assoc, Event.printIter.injEq] at h <;>
            tauto
        | none =>
          simp only [loop, hc, hg, hst] at h
          rcases ih _ f i c nn h with h' | h'
          · split_ifs at h' <;>
              simp [List.append_assoc, Event.printIter.injEq] at h' <;>
              tauto
          · exact Or.inr h'

/-- Helper: every step-rule event the loop adds carries, as its direction,
the exact negation of the gradient estimate of its iteration (line 74). -/
theorem loop_stepRule_neg {P V : Type} [Neg V] (cfg : SolverConfig)
    (rule : StepSizeRule P V) (clock : ℕ → ℤ) (prob : Problem P V) :
    ∀ (fuel : ℕ) (s : LoopState P V) (p : P) (g d : V) (i : ℕ) (st : ℤ)
      (xn : P),
      Event.stepRule p g d i st xn ∈ (loop cfg rule clock prob fuel s).trace →
        Event.stepRule p g d i st xn ∈ s.trace ∨ d = -g := by
  intro fuel
  induction fuel with
  | zero => intro s p g d i st xn h; exact Or.inl h
  | succ n ih =>
    intro s p g d i st xn h
    cases hc : prob.cost s.iter s.x with
    | error msg =>
      simp only [loop, hc] at h
      simp only [List.mem_append, List.mem_singleton] at h
      rcases h with h | h
      · exact Or.inl h
      · simp at h
    | ok cost =>
      cases hg : prob.grad s.iter s.x with
      | error msg =>
        simp only [loop, hc, hg] at h
        simp only [List.append_assoc, List.mem_append, List.mem_cons,
          List.mem_singleton] at h
        rcases h with h | h
        · exact Or.inl h
        · simp at h
      | ok grad =>
        cases hst : checkStoppingCriterion cfg (clock (s.iter + 1) - clock 0)
            (rule.next s.x (-grad) (s.iter + 1)).1
            (prob.manifold.norm s.x grad) (s.iter + 1) with
        | some reason =>
          simp only [loop, hc, hg, hst, finish_trace_eq] at h
          split_ifs at h <;>
            simp [List.append_assoc, Event.stepRule.injEq] at h <;>
            (rcases h with h | h
             · exact Or.inl h
             · obtain ⟨-, h2, h3, -⟩ := h
               subst h2
               exact Or.inr h3)
        | none =>
          simp only [loop, hc, hg, hst] at h
          rcases ih _ p g d i st xn h with h' | h'
          · split_ifs at h' <;>
              simp [List.append_assoc, Event.stepRule.injEq] at h' <;>
              (rcases h' with h' | h'
               · exact Or.inl h'
               · obtain ⟨-, h2, h3, -⟩ := h'
                 subst h2
                 exact Or.inr h3)
          · exact Or.inr h'

/-- Helper: with console verbosity at least 2, the loop emits exactly one
per-iteration print line per executed iteration (lines 67-68). -/
theorem loop_printIter_delta {P V : Type} [Neg V] (cfg : SolverConfig)
    (rule : StepSizeRule P V) (clock : ℕ → ℤ) (prob : Problem P V)
    (hv : 2 ≤ prob.verbosity) :
    ∀ (fuel : ℕ) (s : LoopState P V),
      ∃ k, (loop cfg rule clock prob fuel s).trace.countP Event.isPrintIter
          = s.trace.countP Event.isPrintIter + k
        ∧ (loop cfg rule clock prob fuel s).iters = s.iter + k := by
  intro fuel
  induction fuel with
  | zero => intro s; exact ⟨0, rfl, rfl⟩
  | succ n ih =>
    intro s
    cases hc : prob.cost s.iter s.x with
    | error msg =>
      refine ⟨0, ?_, ?_⟩ <;>
        simp [loop, hc, List.countP_append, Event.isPrintIter]
    | ok cost =>
      cases hg : prob.grad s.iter s.x with
      | error msg =>
        refine ⟨0, ?_, ?_⟩ <;>
          simp [loop, hc, hg, List.countP_append, Event.isPrintIter]
      | ok grad =>
        cases hst : checkStoppingCriterion cfg (clock (s.iter + 1) - clock 0)
            (rule.next s.x (-grad) (s.iter + 1)).1
            (prob.manifold.norm s.x grad) (s.iter + 1) with
        | some reason =>
          refine ⟨1, ?_, ?_⟩ <;>
            simp only [loop, hc, hg, hst] <;>
            simp only [finish_no_printIter, finish_iters] <;>
            rw [if_pos hv] <;>
            split_ifs <;>
            simp [List.countP_append, Event.isPrintIter]
        | none =>
          obtain ⟨k, hk1, hk2⟩ := ih _
          refine ⟨k + 1, ?_, ?_⟩ <;> simp only [loop, hc, hg, hst]
          · rw [hk1]
            rw [if_pos hv]
            simp [List.countP_append, Event.isPrintIter]
            omega
          · rw [hk2]
            simp only
            omega

/-- Helper: when the loop returns a result and the log verbosity is
positive, the number of cost evaluations in its trace is the number of
executed iterations plus the one extra evaluation of the epilogue. -/
theorem loop_costEval_delta {P V : Type} [Neg V] (cfg : SolverConfig)
    (rule : StepSizeRule P V) (clock : ℕ → ℤ) (prob : Problem P V)
    (hlv : 1 ≤ cfg.logverbosity) :
    ∀ (fuel : ℕ) (s : LoopState P V) (r : SolveResult P),
      (loop cfg rule clock prob fuel s).result = Except.ok r →
      ∃ k, (loop cfg rule clock prob fuel s).trace.countP Event.isCostEval
          = s.trace.countP Event.isCostEval + k + 1
        ∧ (loop cfg rule clock prob fuel s).iters = s.iter + k := by
  intro fuel
  induction fuel with
  | zero =>
    intro s r hr
    exact absurd hr (by simp [loop])
  | succ n ih =>
    intro s r hr
    cases hc : prob.cost s.iter s.x with
    | error msg =>
      simp only [loop, hc] at hr
      exact absurd hr (by simp)
    | ok cost =>
      cases hg : prob.grad s.iter s.x with
      | error msg =>
        simp only [loop, hc, hg] at hr
        exact absurd hr (by simp)
      | ok grad =>
        cases hst : checkStoppingCriterion cfg (clock (s.iter + 1) - clock 0)
            (rule.next s.x (-grad) (s.iter + 1)).1
            (prob.manifold.norm s.x grad) (s.iter + 1) with
        | some reason =>
          refine ⟨1, ?_, ?_⟩ <;>
            simp only [loop, hc, hg, hst] <;>
            simp only [finish_costEval_count, finish_iters] <;>
            rw [if_neg (by omega : ¬cfg.logverbosity ≤ 0)] <;>
            split_ifs <;>
            simp [List.countP_append, Event.isCostEval]
        | none =>
          simp only [loop, hc, hg, hst] at hr
          obtain ⟨k, hk1, hk2⟩ := ih _ r hr
          refine ⟨k + 1, ?_, ?_⟩ <;> simp only [loop, hc, hg, hst]
          · rw [hk1]
            split_ifs <;> simp [List.countP_append, Event.isCostEval] <;> omega
          · rw [hk2]
            simp only
            omega

/-- Helper: with log verbosity at least 2, the iteration indices of the
appended records stay the contiguous range 1..iter (lines 65, 70-71). -/
theorem loop_records_range {P V : Type} [Neg V] (cfg : SolverConfig)
    (rule : StepSizeRule P V) (clock : ℕ → ℤ) (prob : Problem P V)
    (hlv : 2 ≤ cfg.logverbosity) :
    ∀ (fuel : ℕ) (s : LoopState P V),
      s.log.records.map IterationRecord.iteration = List.range' 1 s.iter →
      (loop cfg rule clock prob fuel s).log.records.map IterationRecord.iteration
        = List.range' 1 (loop cfg rule clock prob fuel s).iters := by
  intro fuel
  induction fuel with
  | zero => intro s hs; exact hs
  | succ n ih =>
    intro s hs
    cases hc : prob.cost s.iter s.x with
    | error msg => simpa [loop, hc] using hs
    | ok cost =>
      cases hg : prob.grad s.iter s.x with
      | error msg => simpa [loop, hc, hg] using hs
      | ok grad =>
        cases hst : checkStoppingCriterion cfg (clock (s.iter + 1) - clock 0)
            (rule.next s.x (-grad) (s.iter + 1)).1
            (prob.manifold.norm s.x grad) (s.iter + 1) with
        | some reason =>
          simp only [loop, hc, hg, hst]
          simp only [finish_records, finish_iters]
          rw [if_pos hlv]
          simp only [List.map_append, hs, List.map_cons, List.map_nil]
          rw [range1_snoc]
          simp [Nat.add_comm]
        | none =>
          simp only [loop, hc, hg, hst]
          apply ih
          simp only
          rw [if_pos hlv]
          simp only [List.map_append, hs, List.map_cons, List.map_nil]
          rw [range1_snoc]
          simp [Nat.add_comm]

/-- Helper: with log verbosity below 2, the loop never appends a record
(line 70). -/
theorem loop_records_low {P V : Type} [Neg V] (cfg : SolverConfig)
    (rule : StepSizeRule P V) (clock : ℕ → ℤ) (prob : Problem P V)
    (hlv : cfg.logverbosity < 2) :
    ∀ (fuel : ℕ) (s : LoopState P V),
      (loop cfg rule clock prob fuel s).log.records = s.log.records := by
  intro fuel
  induction fuel with
  | zero => intro s; rfl
  | succ n ih =>
    intro s
    cases hc : prob.cost s.iter s.x with
    | error msg => simp [loop, hc]
    | ok cost =>
      cases hg : prob.grad s.iter s.x with
      | error msg => simp [loop, hc, hg]
      | ok grad =>
        cases hst : checkStoppingCriterion cfg (clock (s.iter + 1) - clock 0)
            (rule.next s.x (-grad) (s.iter + 1)).1
            (prob.manifold.norm s.x grad) (s.iter + 1) with
        | some reason =>
          simp only [loop, hc, hg, hst]
          simp only [finish_records]
          rw [if_neg (by omega : ¬2 ≤ cfg.logverbosity)]
        | none =>
          simp only [loop, hc, hg, hst]
          rw [ih]
          simp only
          rw [if_neg (by omega : ¬2 ≤ cfg.logverbosity)]

/-- Helper: with every threshold disabled the stopping check never fires. -/
theorem checkStop_all_off (cfg : SolverConfig) (h1 : cfg.maxiter = none)
    (h2 : cfg.maxtime = none) (h3 : cfg.mingradnorm = none)
    (h4 : cfg.minstepsize = none) (elapsed stepsize gradnorm : ℤ) (iter : ℕ) :
    checkStoppingCriterion cfg elapsed stepsize gradnorm iter = none := by
  simp [checkStoppingCriterion, h1, h2, h3, h4, thresholdHit]

/-- Helper: with every threshold disabled and total cost/gradient functions,
the loop never stops on its own: it consumes all its fuel. -/
theorem loop_all_off_diverges {P V : Type} [Neg V] (cfg : SolverConfig)
    (rule : StepSizeRule P V) (clock : ℕ → ℤ) (prob : Problem P V)
    (h1 : cfg.maxiter = none) (h2 : cfg.maxtime = none)
    (h3 : cfg.mingradnorm = none) (h4 : cfg.minstepsize = none)
    (hc : ∀ k p, ∃ c, prob.cost k p = Except.ok c)
    (hg : ∀ k p, ∃ g, prob.grad k p = Except.ok g) :
    ∀ (fuel : ℕ) (s : LoopState P V),
      (loop cfg rule clock prob fuel s).result = Except.error Abort.diverged := by
  intro fuel
  induction fuel with
  | zero => intro s; rfl
  | succ n ih =>
    intro s
    obtain ⟨c, hc'⟩ := hc s.iter s.x
    obtain ⟨g, hg'⟩ := hg s.iter s.x
    simp only [loop, hc', hg',
      checkStop_all_off cfg h1 h2 h3 h4 (clock (s.iter + 1) - clock 0)
        (rule.next s.x (-g) (s.iter + 1)).1 (prob.manifold.norm s.x g)
        (s.iter + 1)]
    exact ih _

/-- Helper: when the loop returns a result, its shape follows lines 88-94,
and the terminal record of the finalized log carries the final point, a
fresh cost evaluation at it, the stop reason produced by the stopping check
of the final iteration, the elapsed time, and the final stepsize, gradient
norm and iteration count. -/
theorem loop_result_shape {P V : Type} [Neg V] (cfg : SolverConfig)
    (rule : StepSizeRule P V) (clock : ℕ → ℤ) (prob : Problem P V) :
    ∀ (fuel : ℕ) (s : LoopState P V) (r : SolveResult P),
      (loop cfg rule clock prob fuel s).result = Except.ok r →
      (cfg.logverbosity ≤ 0 → ∃ x, r = SolveResult.point x) ∧
      (1 ≤ cfg.logverbosity → ∃ x f p0 g,
        r = SolveResult.pointWithLog x (loop cfg rule clock prob fuel s).log ∧
        (loop cfg rule clock prob fuel s).log.final = some f ∧
        f.point = x ∧
        f.iteration = (loop cfg rule clock prob fuel s).iters ∧
        prob.cost (loop cfg rule clock prob fuel s).iters x
          = Except.ok f.cost ∧
        f.elapsed
          = clock ((loop cfg rule clock prob fuel s).iters + 1) - clock 0 ∧
        Event.stepRule p0 g (-g) (loop cfg rule clock prob fuel s).iters
            f.stepsize x ∈ (loop cfg rule clock prob fuel s).trace ∧
        f.gradnorm = prob.manifold.norm p0 g ∧
        checkStoppingCriterion cfg
            (clock (loop cfg rule clock prob fuel s).iters - clock 0)
            f.stepsize f.gradnorm (loop cfg rule clock prob fuel s).iters
          = some f.reason) := by
  intro fuel
  induction fuel with
  | zero =>
    intro s r hr
    exact absurd hr (by simp [loop])
  | succ n ih =>
    intro s r hr
    cases hc : prob.cost s.iter s.x with
    | error msg =>
      simp only [loop, hc] at hr
      exact absurd hr (by simp)
    | ok cost =>
      cases hg : prob.grad s.iter s.x with
      | error msg =>
        simp only [loop, hc, hg] at hr
        exact absurd hr (by simp)
      | ok grad =>
        cases hst : checkStoppingCriterion cfg (clock (s.iter + 1) - clock 0)
            (rule.next s.x (-grad) (s.iter + 1)).1
            (prob.manifold.norm s.x grad) (s.iter + 1) with
        | some reason =>
          simp only [loop, hc, hg, hst] at hr ⊢
          obtain ⟨hs0, hs1⟩ :=
            finish_result_shape _ _ _ _ _ _ _ _ _ _ _ hr
          constructor
          · intro h0
            exact ⟨_, hs0 h0⟩
          · intro h1
            obtain ⟨c, hcost2, hfinal, hrEq⟩ := hs1 h1
            refine ⟨(rule.next s.x (-grad) (s.iter + 1)).2, _, s.x, grad,
              hrEq, hfinal, rfl, ?_, ?_, ?_, ?_, rfl, ?_⟩
            · rw [finish_iters]
            · rw [finish_iters]
              exact hcost2
            · rw [finish_iters]
            · rw [finish_iters, finish_trace_eq]
              split_ifs <;> simp [List.append_assoc]
            · rw [finish_iters]
              exact hst
        | none =>
          simp only [loop, hc, hg, hst] at hr ⊢
          exact ih _ r hr

/-- Claim C9: every invocation of `StochasticGradient.solve`, for any
problem, configuration and initial point, fails before executing the first
loop iteration: the `_start_optlog` call at lines 54-55 evaluates the
undefined name `linesearch` and raises a NameError (and line 77 is an
assignment with no right-hand side, so the module is not even parseable).
Consequently no iteration record is ever appended, the log is never
finalized, the iteration counter stays 0, no cost is ever evaluated, and no
point is ever returned. -/
theorem solve_always_aborts_before_loop {P V : Type} (cfg : SolverConfig)
    (prob : Problem P V) (x? : Option P) :
    (solve cfg prob x?).result = Except.error (Abort.exn nameErrorLinesearch)
    ∧ (solve cfg prob x?).log.records = []
    ∧ (solve cfg prob x?).log.final = none
    ∧ (solve cfg prob x?).iters = 0
    ∧ (solve cfg prob x?).trace.countP Event.isCostEval = 0 :=
  ⟨rfl, rfl, rfl, rfl, initTrace_no_costEval prob x?⟩

/-- Claim C1, evaluated at a failing input: at a concrete problem and
initial point, `solve` aborts with the NameError of line 55 and its trace
contains no step-size-rule invocation at all — the loop, and with it the
step-size delegation that the claim (and the TODO comment at line 77)
describe, is never executed. -/
theorem solve_never_invokes_step_rule :
    (solve cfg0 prob0 (some 1)).result
        = Except.error (Abort.exn nameErrorLinesearch)
    ∧ (solve cfg0 prob0 (some 1)).trace.countP Event.isStepRule = 0 :=
  ⟨rfl, rfl⟩

/-- Claim C2, counterexample: with every stopping threshold disabled,
`solve` does not reject the configuration with a ConfigurationError before
the loop; it aborts with the NameError of line 55, exactly as it does for
every other configuration. -/
theorem solve_allOff_not_configurationError :
    (solve cfgAllOff prob0 (some 1)).result
        = Except.error (Abort.exn nameErrorLinesearch)
    ∧ (solve cfgAllOff prob0 (some 1)).result
        ≠ Except.error Abort.configurationError :=
  ⟨rfl, by simp [solve]⟩

/-- Claim C2 as amended: `solve` performs no configuration validation.  A
call whose stopping thresholds are all disabled is not rejected with a
ConfigurationError at solve start: as written, every call aborts with the
NameError of line 55 before any loop iteration, whatever the
configuration; and the loop code itself contains no reachability check, so
with the missing pieces completed an all-disabled configuration iterates
forever (here: exhausts any amount of fuel). -/
theorem solve_no_config_validation {P V : Type} [Neg V] (cfg : SolverConfig)
    (rule : StepSizeRule P V) (clock : ℕ → ℤ) (prob : Problem P V)
    (x? : Option P)
    (h1 : cfg.maxiter = none) (h2 : cfg.maxtime = none)
    (h3 : cfg.mingradnorm = none) (h4 : cfg.minstepsize = none)
    (hc : ∀ k p, ∃ c, prob.cost k p = Except.ok c)
    (hg : ∀ k p, ∃ g, prob.grad k p = Except.ok g) :
    (solve cfg prob x?).result = Except.error (Abort.exn nameErrorLinesearch)
    ∧ (solve cfg prob x?).result ≠ Except.error Abort.configurationError
    ∧ (solve cfg prob x?).iters = 0
    ∧ ∀ fuel, (solveCompleted cfg rule clock prob x? fuel).result
        = Except.error Abort.diverged := by
  refine ⟨rfl, by simp [solve], rfl, fun fuel => ?_⟩
  exact loop_all_off_diverges cfg rule clock prob h1 h2 h3 h4 hc hg fuel _

/-- Witness for the amended claim C2 at a concrete all-disabled
configuration. -/
theorem solve_no_config_validation_witness :
    (cfgAllOff.maxiter = none ∧ cfgAllOff.maxtime = none
      ∧ cfgAllOff.mingradnorm = none ∧ cfgAllOff.minstepsize = none)
    ∧ ((solve cfgAllOff prob0 (some 1)).result
          = Except.error (Abort.exn nameErrorLinesearch)
      ∧ (solve cfgAllOff prob0 (some 1)).result
          ≠ Except.error Abort.configurationError
      ∧ (solve cfgAllOff prob0 (some 1)).iters = 0
      ∧ ∀ fuel,
          (solveCompleted cfgAllOff rule0 clock0 prob0 (some 1) fuel).result
            = Except.error Abort.diverged) :=
  ⟨⟨by rfl, by rfl, by rfl, by rfl⟩,
    solve_no_config_validation cfgAllOff rule0 clock0 prob0 (some 1)
      (by rfl) (by rfl) (by rfl) (by rfl)
      (fun _ p => ⟨p * p, by rfl⟩) (fun _ p => ⟨2 * p, by rfl⟩)⟩

/-- Claim C4: with log verbosity at least 2, the appended iteration records
carry the iteration indices 1, 2, 3, ... in append order (the i-th appended
record, 0-based, has iteration i+1), and exactly one record is appended per
executed loop iteration. -/
theorem solveCompleted_log_monotone {P V : Type} [Neg V] (cfg : SolverConfig)
    (rule : StepSizeRule P V) (clock : ℕ → ℤ) (prob : Problem P V)
    (x? : Option P) (fuel : ℕ) (hlv : 2 ≤ cfg.logverbosity) :
    (solveCompleted cfg rule clock prob x? fuel).log.records.map
        IterationRecord.iteration
      = List.range' 1 (solveCompleted cfg rule clock prob x? fuel).iters :=
  loop_records_range cfg rule clock prob hlv fuel _ rfl

/-- Witness for claim C4 at the concrete reference run. -/
theorem solveCompleted_log_monotone_witness :
    (2 : ℤ) ≤ cfg0.logverbosity
    ∧ (solveCompleted cfg0 rule0 clock0 prob0 (some 1) 5).log.records.map
          IterationRecord.iteration
        = List.range' 1 (solveCompleted cfg0 rule0 clock0 prob0 (some 1) 5).iters :=
  ⟨by decide,
    solveCompleted_log_monotone cfg0 rule0 clock0 prob0 (some 1) 5 (by decide)⟩

/-- Claim C5: in every run and every iteration, the direction handed to the
step-size rule is exactly the negation of that iteration's gradient
estimate (line 74); the mapping is stateless and identical across
iterations, points and gradient values. -/
theorem solveCompleted_descDir_neg {P V : Type} [Neg V] (cfg : SolverConfig)
    (rule : StepSizeRule P V) (clock : ℕ → ℤ) (prob : Problem P V)
    (x? : Option P) (fuel : ℕ) (p : P) (g d : V) (i : ℕ) (st : ℤ) (xn : P)
    (h : Event.stepRule p g d i st xn
        ∈ (solveCompleted cfg rule clock prob x? fuel).trace) :
    d = -g := by
  simp only [solveCompleted] at h
  rcases loop_stepRule_neg cfg rule clock prob fuel _ p g d i st xn h with h' | h'
  · exact absurd h' (initTrace_no_stepRule prob x? p g d i st xn)
  · exact h'

/-- Witness for claim C5 at the concrete reference run. -/
theorem solveCompleted_descDir_neg_witness :
    Event.stepRule (P := ℤ) (V := ℤ) 1 2 (-2) 1 1 (-1)
        ∈ (solveCompleted cfg0 rule0 clock0 prob0 (some 1) 5).trace
    ∧ (-2 : ℤ) = -2 :=
  ⟨by decide,
    solveCompleted_descDir_neg cfg0 rule0 clock0 prob0 (some 1) 5
      1 2 (-2) 1 1 (-1) (by decide)⟩

/-- Claim C10: over a terminating run with log verbosity at least 1, the
cost function is evaluated exactly (number of loop iterations) + 1 times:
once per iteration at line 62, plus the fresh evaluation at the final point
at line 91 when the log is finalized. -/
theorem solveCompleted_final_cost_extra_eval {P V : Type} [Neg V]
    (cfg : SolverConfig) (rule : StepSizeRule P V) (clock : ℕ → ℤ)
    (prob : Problem P V) (x? : Option P) (fuel : ℕ) (r : SolveResult P)
    (hlv : 1 ≤ cfg.logverbosity)
    (hr : (solveCompleted cfg rule clock prob x? fuel).result = Except.ok r) :
    (solveCompleted cfg rule clock prob x? fuel).trace.countP Event.isCostEval
      = (solveCompleted cfg rule clock prob x? fuel).iters + 1 := by
  simp only [solveCompleted] at hr ⊢
  obtain ⟨k, hk1, hk2⟩ := loop_costEval_delta cfg rule clock prob hlv fuel _ r hr
  rw [hk1, hk2]
  simp [initTrace_no_costEval]

/-- Witness for claim C10 at the concrete reference run (3 iterations, 4
cost evaluations). -/
theorem solveCompleted_final_cost_extra_eval_witness :
    (1 : ℤ) ≤ cfg0.logverbosity
    ∧ (solveCompleted cfg0 rule0 clock0 prob0 (some 1) 5).result
        = Except.ok (SolveResult.pointWithLog (-1) log3)
    ∧ (solveCompleted cfg0 rule0 clock0 prob0 (some 1) 5).trace.countP
          Event.isCostEval
        = (solveCompleted cfg0 rule0 clock0 prob0 (some 1) 5).iters + 1 :=
  ⟨by decide, by rfl,
    solveCompleted_final_cost_extra_eval cfg0 rule0 clock0 prob0 (some 1) 5
      (SolveResult.pointWithLog (-1) log3) (by decide) (by rfl)⟩

/-- Claim C3: for every terminating run of the completed solver: with log
verbosity at most 0 only the final point is returned (line 88-89); otherwise
the pair (final point, log) is returned, where the log was finalized with a
terminal record holding the final point, the cost freshly evaluated at the
final point, the stop reason of the final stopping check, the elapsed time,
and the final stepsize, gradient norm and iteration count (lines 90-94). -/
theorem solveCompleted_result_shape {P V : Type} [Neg V] (cfg : SolverConfig)
    (rule : StepSizeRule P V) (clock : ℕ → ℤ) (prob : Problem P V)
    (x? : Option P) (fuel : ℕ) (r : SolveResult P)
    (hr : (solveCompleted cfg rule clock prob x? fuel).result = Except.ok r) :
    (cfg.logverbosity ≤ 0 → ∃ x, r = SolveResult.point x) ∧
    (1 ≤ cfg.logverbosity → ∃ x f p0 g,
      r = SolveResult.pointWithLog x
            (solveCompleted cfg rule clock prob x? fuel).log ∧
      (solveCompleted cfg rule clock prob x? fuel).log.final = some f ∧
      f.point = x ∧
      f.iteration = (solveCompleted cfg rule clock prob x? fuel).iters ∧
      prob.cost (solveCompleted cfg rule clock prob x? fuel).iters x
        = Except.ok f.cost ∧
      f.elapsed
        = clock ((solveCompleted cfg rule clock prob x? fuel).iters + 1)
            - clock 0 ∧
      Event.stepRule p0 g (-g)
          (solveCompleted cfg rule clock prob x? fuel).iters f.stepsize x
        ∈ (solveCompleted cfg rule clock prob x? fuel).trace ∧
      f.gradnorm = prob.manifold.norm p0 g ∧
      checkStoppingCriterion cfg
          (clock (solveCompleted cfg rule clock prob x? fuel).iters - clock 0)
          f.stepsize f.gradnorm
          (solveCompleted cfg rule clock prob x? fuel).iters
        = some f.reason) :=
  loop_result_shape cfg rule clock prob fuel _ r hr

/-- Witness for claim C3 at the concrete reference run (3 iterations,
stopped by the iteration threshold, finalized log `log3`). -/
theorem solveCompleted_result_shape_witness :
    (solveCompleted cfg0 rule0 clock0 prob0 (some 1) 5).result
        = Except.ok (SolveResult.pointWithLog (-1) log3)
    ∧ ((cfg0.logverbosity ≤ 0 →
          ∃ x, SolveResult.pointWithLog (-1) log3 = SolveResult.point x) ∧
       (1 ≤ cfg0.logverbosity → ∃ x f p0 g,
          SolveResult.pointWithLog (-1) log3
            = SolveResult.pointWithLog x
                (solveCompleted cfg0 rule0 clock0 prob0 (some 1) 5).log ∧
          (solveCompleted cfg0 rule0 clock0 prob0 (some 1) 5).log.final
            = some f ∧
          f.point = x ∧
          f.iteration
            = (solveCompleted cfg0 rule0 clock0 prob0 (some 1) 5).iters ∧
          prob0.cost (solveCompleted cfg0 rule0 clock0 prob0 (some 1) 5).iters x
            = Except.ok f.cost ∧
          f.elapsed
            = clock0
                ((solveCompleted cfg0 rule0 clock0 prob0 (some 1) 5).iters + 1)
                - clock0 0 ∧
          Event.stepRule p0 g (-g)
              (solveCompleted cfg0 rule0 clock0 prob0 (some 1) 5).iters
              f.stepsize x
            ∈ (solveCompleted cfg0 rule0 clock0 prob0 (some 1) 5).trace ∧
          f.gradnorm = prob0.manifold.norm p0 g ∧
          checkStoppingCriterion cfg0
              (clock0 (solveCompleted cfg0 rule0 clock0 prob0 (some 1) 5).iters
                - clock0 0)
              f.stepsize f.gradnorm
              (solveCompleted cfg0 rule0 clock0 prob0 (some 1) 5).iters
            = some f.reason)) :=
  ⟨by rfl,
    solveCompleted_result_shape cfg0 rule0 clock0 prob0 (some 1) 5
      (SolveResult.pointWithLog (-1) log3) (by rfl)⟩

/-- Claim C7, counterexample: the header the code prints (line 52) has two
tab characters between " iter" and "   cost val", not one; the one-tab
header the claim describes is never printed. -/
theorem header_two_tabs_not_one :
    Event.printHeader (P := ℤ) (V := ℤ) specHeaderOneTab
        ∉ (solve cfg0 prob0 (some 1)).trace
    ∧ Event.printHeader (P := ℤ) (V := ℤ) headerString
        ∈ (solve cfg0 prob0 (some 1)).trace
    ∧ headerString ≠ specHeaderOneTab := by
  refine ⟨?_, ?_, ?_⟩ <;> decide

/-- Claim C7 as amended: when console verbosity is at least 2 the header
line " iter", two tabs, "   cost val", one tab, "    grad. norm" is emitted
before the first iteration, and every per-iteration line is formatted with
"%5d\t%+.16e\t%.8e" — iteration number, signed cost in scientific notation
with 16 digits after the decimal point, gradient norm with 8 digits,
separated by tabs — one line per executed iteration. -/
theorem solveCompleted_console_format {P V : Type} [Neg V]
    (cfg : SolverConfig) (rule : StepSizeRule P V) (clock : ℕ → ℤ)
    (prob : Problem P V) (p : P) (fuel : ℕ) (hv : 2 ≤ prob.verbosity) :
    headerString = " iter\t\t   cost val\t    grad. norm"
    ∧ iterLineFormat = "%5d\t%+.16e\t%.8e"
    ∧ (∃ rest, (solveCompleted cfg rule clock prob (some p) fuel).trace
        = Event.printHeader headerString :: rest)
    ∧ (∀ f i c nn, Event.printIter f i c nn
          ∈ (solveCompleted cfg rule clock prob (some p) fuel).trace
        → f = iterLineFormat)
    ∧ (solveCompleted cfg rule clock prob (some p) fuel).trace.countP
          Event.isPrintIter
        = (solveCompleted cfg rule clock prob (some p) fuel).iters := by
  refine ⟨rfl, rfl, ?_, ?_, ?_⟩
  · simp only [solveCompleted]
    obtain ⟨t, ht⟩ := loop_trace_mono cfg rule clock prob fuel _
    refine ⟨t, ?_⟩
    rw [ht]
    simp [initTrace_some prob p hv]
  · intro f i c nn h
    simp only [solveCompleted] at h
    rcases loop_printIter_fmt cfg rule clock prob fuel _ f i c nn h with h' | h'
    · have h0 := initTrace_no_printIter (V := V) prob (some p)
      rw [List.countP_eq_zero] at h0
      exact absurd (h0 _ h') (by simp [Event.isPrintIter])
    · exact h'
  · simp only [solveCompleted]
    obtain ⟨k, hk1, hk2⟩ := loop_printIter_delta cfg rule clock prob hv fuel _
    rw [hk1, hk2]
    simp [initTrace_no_printIter]

/-- Witness for the amended claim C7 at the concrete reference run. -/
theorem solveCompleted_console_format_witness :
    (2 : ℤ) ≤ prob0.verbosity
    ∧ (headerString = " iter\t\t   cost val\t    grad. norm"
      ∧ iterLineFormat = "%5d\t%+.16e\t%.8e"
      ∧ (∃ rest, (solveCompleted cfg0 rule0 clock0 prob0 (some 1) 5).trace
          = Event.printHeader headerString :: rest)
      ∧ (∀ f i c nn, Event.printIter f i c nn
            ∈ (solveCompleted cfg0 rule0 clock0 prob0 (some 1) 5).trace
          → f = iterLineFormat)
      ∧ (solveCompleted cfg0 rule0 clock0 prob0 (some 1) 5).trace.countP
            Event.isPrintIter
          = (solveCompleted cfg0 rule0 clock0 prob0 (some 1) 5).iters) :=
  ⟨by decide,
    solveCompleted_console_format cfg0 rule0 clock0 prob0 1 5 (by decide)⟩

/-- Claim C8: when the initial point is absent the solver draws exactly one
random point from the manifold before the loop (lines 44-45) — it is the
very first observable action and the first iterate, the point of the first
cost evaluation; when an initial point is supplied, no random point is ever
requested and the supplied point is the first iterate. -/
theorem solveCompleted_initial_point {P V : Type} [Neg V]
    (cfg : SolverConfig) (rule : StepSizeRule P V) (clock : ℕ → ℤ)
    (prob : Problem P V) (x? : Option P) (fuel : ℕ) (hfuel : 1 ≤ fuel) :
    (x? = none →
      (solveCompleted cfg rule clock prob x? fuel).trace.countP Event.isRand
          = 1
      ∧ (solveCompleted cfg rule clock prob x? fuel).trace.head?
          = some (Event.rand prob.manifold.rand)
      ∧ (solveCompleted cfg rule clock prob x? fuel).trace.find?
            Event.isCostEval
          = some (Event.costEval prob.manifold.rand))
    ∧ (∀ p, x? = some p →
      (solveCompleted cfg rule clock prob x? fuel).trace.countP Event.isRand
          = 0
      ∧ (solveCompleted cfg rule clock prob x? fuel).trace.find?
            Event.isCostEval
          = some (Event.costEval p)) := by
  constructor
  · rintro rfl
    refine ⟨?_, ?_, ?_⟩
    · simp only [solveCompleted]
      rw [loop_no_rand cfg rule clock prob]
      by_cases hv : 2 ≤ prob.verbosity <;>
        simp [initTrace, hv, Event.isRand]
    · simp only [solveCompleted]
      obtain ⟨t, ht⟩ := loop_trace_mono cfg rule clock prob fuel _
      rw [ht]
      by_cases hv : 2 ≤ prob.verbosity <;>
        simp [initTrace, hv]
    · simp only [solveCompleted]
      obtain ⟨t, ht⟩ := loop_first_costEval cfg rule clock prob fuel _ hfuel
      rw [ht]
      have h0 : (initTrace prob (none : Option P)).find?
          (Event.isCostEval (V := V)) = none := by
        by_cases hv : 2 ≤ prob.verbosity <;>
          simp [initTrace, hv, List.find?, Event.isCostEval]
      simp [List.find?_append, h0, List.find?, Event.isCostEval, startPoint]
  · rintro p rfl
    constructor
    · simp only [solveCompleted]
      rw [loop_no_rand cfg rule clock prob]
      by_cases hv : 2 ≤ prob.verbosity <;>
        simp [initTrace, hv, Event.isRand]
    · simp only [solveCompleted]
      obtain ⟨t, ht⟩ := loop_first_costEval cfg rule clock prob fuel _ hfuel
      rw [ht]
      have h0 : (initTrace prob (some p)).find?
          (Event.isCostEval (V := V)) = none := by
        by_cases hv : 2 ≤ prob.verbosity <;>
          simp [initTrace, hv, List.find?, Event.isCostEval]
      simp [List.find?_append, h0, List.find?, Event.isCostEval, startPoint]

/-- Witness for claim C8 at the concrete reference runs (one with the
initial point absent, one with it supplied). -/
theorem solveCompleted_initial_point_witness :
    1 ≤ 5
    ∧ (((none : Option ℤ) = none →
        (solveCompleted cfg0 rule0 clock0 prob0 none 5).trace.countP
            Event.isRand = 1
        ∧ (solveCompleted cfg0 rule0 clock0 prob0 none 5).trace.head?
            = some (Event.rand prob0.manifold.rand)
        ∧ (solveCompleted cfg0 rule0 clock0 prob0 none 5).trace.find?
              Event.isCostEval
            = some (Event.costEval prob0.manifold.rand))
      ∧ (∀ p, (none : Option ℤ) = some p →
        (solveCompleted cfg0 rule0 clock0 prob0 none 5).trace.countP
            Event.isRand = 0
        ∧ (solveCompleted cfg0 rule0 clock0 prob0 none 5).trace.find?
              Event.isCostEval
            = some (Event.costEval p))) :=
  ⟨by decide,
    solveCompleted_initial_point cfg0 rule0 clock0 prob0 none 5 (by decide)⟩

/-- Claim C6: if the gradient function raises on its 3rd invocation (call
index 2) while the first two invocations of cost and gradient succeed and
the stopping checks of iterations 1 and 2 do not fire, the completed solver
aborts by propagating that failure: the result is the propagated exception,
exactly 2 iterations complete, no 3rd iteration record is appended (with
log verbosity at least 2 the log holds exactly the 2 records of iterations
1 and 2), and the gradient was evaluated exactly 3 times. -/
theorem solveCompleted_gradFail_third {P V : Type} [Neg V]
    (cfg : SolverConfig) (rule : StepSizeRule P V) (clock : ℕ → ℤ)
    (prob : Problem P V) (x? : Option P) (fuel : ℕ) (msg : String)
    (hstop1 : ∀ e st gn, checkStoppingCriterion cfg e st gn 1 = none)
    (hstop2 : ∀ e st gn, checkStoppingCriterion cfg e st gn 2 = none)
    (hc0 : ∀ p, ∃ c, prob.cost 0 p = Except.ok c)
    (hc1 : ∀ p, ∃ c, prob.cost 1 p = Except.ok c)
    (hc2 : ∀ p, ∃ c, prob.cost 2 p = Except.ok c)
    (hg0 : ∀ p, ∃ g, prob.grad 0 p = Except.ok g)
    (hg1 : ∀ p, ∃ g, prob.grad 1 p = Except.ok g)
    (hg2 : ∀ p, prob.grad 2 p = Except.error msg)
    (hfuel : 3 ≤ fuel) :
    (solveCompleted cfg rule clock prob x? fuel).result
        = Except.error (Abort.exn msg)
    ∧ (solveCompleted cfg rule clock prob x? fuel).iters = 2
    ∧ (solveCompleted cfg rule clock prob x? fuel).log.records.length ≤ 2
    ∧ (2 ≤ cfg.logverbosity →
        (solveCompleted cfg rule clock prob x? fuel).log.records.length = 2)
    ∧ (solveCompleted cfg rule clock prob x? fuel).trace.countP
          Event.isGradEval = 3 := by
  obtain ⟨c0, hc0'⟩ := hc0 (startPoint prob x?)
  obtain ⟨g0, hg0'⟩ := hg0 (startPoint prob x?)
  obtain ⟨c1, hc1'⟩ := hc1 ((rule.next (startPoint prob x?) (-g0) 1).2)
  obtain ⟨g1, hg1'⟩ := hg1 ((rule.next (startPoint prob x?) (-g0) 1).2)
  obtain ⟨c2, hc2'⟩ :=
    hc2 ((rule.next ((rule.next (startPoint prob x?) (-g0) 1).2) (-g1) 2).2)
  have hg2' :=
    hg2 ((rule.next ((rule.next (startPoint prob x?) (-g0) 1).2) (-g1) 2).2)
  obtain ⟨m, rfl⟩ : ∃ m, fuel = m + 3 := ⟨fuel - 3, by omega⟩
  simp only [solveCompleted]
  simp only [loop, Nat.zero_add, show (1 : ℕ) + 1 = 2 from rfl,
    show (2 : ℕ) + 1 = 3 from rfl, hc0', hg0', hstop1, hc1', hg1', hstop2,
    hc2', hg2']
  refine ⟨trivial, trivial, ?_, ?_, ?_⟩
  · by_cases hlv : 2 ≤ cfg.logverbosity <;> simp [hlv]
  · intro hlv
    simp [hlv]
  · split_ifs <;>
      simp [List.countP_append, List.countP_cons, Event.isGradEval,
        initTrace_no_gradEval]

/-- Witness for claim C6 at a concrete problem whose gradient raises on its
third invocation, with every stopping threshold disabled and full logging. -/
theorem solveCompleted_gradFail_third_witness :
    3 ≤ 5
    ∧ ((solveCompleted cfgLogOnly rule0 clock0 probGradFail (some 1) 5).result
          = Except.error (Abort.exn gradBoom)
      ∧ (solveCompleted cfgLogOnly rule0 clock0 probGradFail
            (some 1) 5).iters = 2
      ∧ (solveCompleted cfgLogOnly rule0 clock0 probGradFail
            (some 1) 5).log.records.length ≤ 2
      ∧ (2 ≤ cfgLogOnly.logverbosity →
          (solveCompleted cfgLogOnly rule0 clock0 probGradFail
              (some 1) 5).log.records.length = 2)
      ∧ (solveCompleted cfgLogOnly rule0 clock0 probGradFail
            (some 1) 5).trace.countP Event.isGradEval = 3) :=
  ⟨by decide,
    solveCompleted_gradFail_third cfgLogOnly rule0 clock0 probGradFail
      (some 1) 5 gradBoom
      (fun _ _ _ => by rfl) (fun _ _ _ => by rfl)
      (fun p => ⟨p * p, by rfl⟩) (fun p => ⟨p * p, by rfl⟩)
      (fun p => ⟨p * p, by rfl⟩)
      (fun p => ⟨2 * p, by rfl⟩) (fun p => ⟨2 * p, by rfl⟩)
      (fun _ => by rfl)
      (by decide)⟩

end StochasticGradient
